import Mathlib

/-!
# Verification of the temperature-analysis core of `src/Semusi/src/App.jsx`

Shallow embedding of the analysis logic embedded in the `App` component:

* `calculateAmbientTemp` (App.jsx lines 44-46),
* `calculateStats` (lines 48-55),
* `getTrend` (lines 57-64),
* the alert-evaluation `useEffect` body (lines 66-86), embedded here as
  `evaluateAlerts`.

JavaScript numbers are modelled as exact rationals (`ℚ`).  The places where
JavaScript produces non-finite values (`Math.min()` of no arguments is
`Infinity`, `Math.max()` is `-Infinity`, `0/0` is `NaN`) are modelled by the
type `JVal`.  `Number.prototype.toFixed(1)` (round to nearest multiple of
`1/10`, ties to the larger value) is modelled by `round1`, returning the
rounded rational rather than its decimal string.  Out-of-range array indexing
(`data[-1]` is `undefined`, and reading a property of `undefined` throws a
`TypeError`) is modelled by `jsIndex` returning `none` and the callers
returning `Except.error JSError.typeError`.  The two `Date.now()` calls in the
alert effect are modelled as explicit integer parameters.
-/

/-- One observation of the series held in the `temperatureData` state:
a time label and the two sensor readings. -/
structure Sample where
  time : String
  localTemp : ℚ
  batteryTemp : ℚ
deriving DecidableEq, Repr

/-- The two numeric fields a statistics / trend computation can project
(`'localTemp'` or `'batteryTemp'` string keys in the source). -/
inductive FieldKey where
  | localTemp
  | batteryTemp
deriving DecidableEq, Repr

/-- `item[key]` of the source: project the chosen field of a sample. -/
def Sample.get (s : Sample) : FieldKey → ℚ
  | .localTemp => s.localTemp
  | .batteryTemp => s.batteryTemp

/-- A JavaScript number value as produced by the statistics code: either a
finite value (modelled exactly as a rational) or one of `NaN`, `Infinity`,
`-Infinity`. -/
inductive JVal where
  | num (q : ℚ)
  | nan
  | inf
  | ninf
deriving DecidableEq, Repr

/-- The only runtime failure the core can hit: a `TypeError` thrown by
reading a property of `undefined` after indexing past the ends of the
series array. -/
inductive JSError where
  | typeError
deriving DecidableEq, Repr

instance {ε α : Type} [DecidableEq ε] [DecidableEq α] : DecidableEq (Except ε α) :=
  fun x y =>
  match x, y with
  | .ok a, .ok b =>
    if h : a = b then .isTrue (by rw [h]) else .isFalse (by simp [h])
  | .error e, .error f =>
    if h : e = f then .isTrue (by rw [h]) else .isFalse (by simp [h])
  | .ok _, .error _ => .isFalse (by simp)
  | .error _, .ok _ => .isFalse (by simp)

/-- `x.toFixed(1)` on a finite value: round to the nearest multiple of
`1/10`, ties going to the larger candidate (ECMA-262 `Number.prototype.toFixed`
picks the larger `n` on a tie, which is `round` = floor of `x + 1/2`). -/
def round1 (x : ℚ) : ℚ := (⌊10 * x + 1 / 2⌋ : ℚ) / 10

/-- `data[i]` for a JavaScript (possibly negative) index: a negative index is
an absent property, giving `undefined` (`none`). -/
def jsIndex (data : List Sample) (i : ℤ) : Option Sample :=
  if i < 0 then none else data[i.toNat]?

/-- App.jsx lines 44-46: `((localTemp * 2 + batteryTemp) / 3).toFixed(1)`. -/
def calculateAmbientTemp (localTemp batteryTemp : ℚ) : ℚ :=
  round1 ((localTemp * 2 + batteryTemp) / 3)

/-- One step of `Math.min(...values)`: `Math.min` folds its arguments
starting from `Infinity`. -/
def jsMinFold : JVal → ℚ → JVal
  | .num m, q => .num (min m q)
  | .nan, _ => .nan
  | .inf, q => .num q
  | .ninf, _ => .ninf

/-- One step of `Math.max(...values)`: `Math.max` folds its arguments
starting from `-Infinity`. -/
def jsMaxFold : JVal → ℚ → JVal
  | .num m, q => .num (max m q)
  | .nan, _ => .nan
  | .inf, _ => .inf
  | .ninf, q => .num q

/-- `Math.min(...values)`; `Infinity` when `values` is empty. -/
def jsMin (values : List ℚ) : JVal := values.foldl jsMinFold .inf

/-- `Math.max(...values)`; `-Infinity` when `values` is empty. -/
def jsMax (values : List ℚ) : JVal := values.foldl jsMaxFold .ninf

/-- `values.reduce((a, b) => a + b, 0)`. -/
def jsSum (values : List ℚ) : ℚ := values.foldl (· + ·) 0

/-- `(values.reduce((a, b) => a + b, 0) / values.length).toFixed(1)`:
on an empty list this is `0 / 0 = NaN` (and `toFixed` keeps it `NaN`),
otherwise the mean rounded to one decimal place. -/
def jsAvg (values : List ℚ) : JVal :=
  if values.length = 0 then .nan
  else .num (round1 (jsSum values / values.length))

/-- The record returned by `calculateStats`. -/
structure Stats where
  min : JVal
  max : JVal
  avg : JVal
deriving DecidableEq, Repr

/-- App.jsx lines 48-55: project the field, then
`{ min: Math.min(...values), max: Math.max(...values), avg: (sum / length).toFixed(1) }`. -/
def calculateStats (data : List Sample) (key : FieldKey) : Stats :=
  let values := data.map (fun item => item.get key)
  { min := jsMin values, max := jsMax values, avg := jsAvg values }

/-- The record returned by `getTrend` (the source calls the magnitude field
`change`). -/
structure Trend where
  direction : String
  change : ℚ
deriving DecidableEq, Repr

/-- App.jsx lines 57-64: compare `data[data.length - 1][key]` with
`data[data.length - 2][key]`.  When either index is out of range the property
read on `undefined` throws a `TypeError`. -/
def getTrend (data : List Sample) (key : FieldKey) : Except JSError Trend :=
  match jsIndex data ((data.length : ℤ) - 1), jsIndex data ((data.length : ℤ) - 2) with
  | some lastS, some prevS =>
    let last := lastS.get key
    let prev := prevS.get key
    .ok { direction := if last > prev then "up" else "down"
          change := round1 |last - prev| }
  | _, _ => .error .typeError

/-- An alert record pushed by the evaluation effect:
`{ id: Date.now(), message: ... }`. -/
structure AlertRec where
  id : ℤ
  message : String
deriving DecidableEq, Repr

/-- Message of the high-battery-temperature rule (App.jsx line 74). -/
def batteryMsg : String := "Battery temperature exceeding normal range"

/-- Message of the large-differential rule (App.jsx line 81). -/
def diffMsg : String := "Large temperature differential detected"

/-- App.jsx lines 66-86, the alert-evaluation `useEffect` body: read
`temperatureData[temperatureData.length - 1]` (a `TypeError` on an empty
series), then push an alert for each of the two rules that fires.  `t1` and
`t2` are the results of the two `Date.now()` calls (the first rule uses
`Date.now()`, the second `Date.now() + 1`). -/
def evaluateAlerts (t1 t2 : ℤ) (data : List Sample) : Except JSError (List AlertRec) :=
  match jsIndex data ((data.length : ℤ) - 1) with
  | none => .error .typeError
  | some latestData =>
    let firstAlerts : List AlertRec :=
      if latestData.batteryTemp > 30 then [{ id := t1, message := batteryMsg }] else []
    let secondAlerts : List AlertRec :=
      if |latestData.batteryTemp - latestData.localTemp| > 10
      then [{ id := t2 + 1, message := diffMsg }] else []
    .ok (firstAlerts ++ secondAlerts)

example : calculateAmbientTemp 22 25 = 23 := by
  norm_num [calculateAmbientTemp, round1]
example : evaluateAlerts 0 0 [⟨"00:00", 22, 25⟩] = .ok [] := by
  norm_num [evaluateAlerts, jsIndex]
example : evaluateAlerts 0 0 [⟨"12:00", 20, 32⟩] =
    .ok [⟨0, batteryMsg⟩, ⟨1, diffMsg⟩] := by
  norm_num [evaluateAlerts, jsIndex]
example : evaluateAlerts 0 0 [] = .error .typeError := rfl
example : getTrend [⟨"15:00", 28, 35⟩, ⟨"18:00", 25, 30⟩] .batteryTemp =
    .ok ⟨"down", 5⟩ := by
  norm_num [getTrend, jsIndex, Sample.get, round1]
example : getTrend [⟨"15:00", 28, 35⟩] .batteryTemp = .error .typeError := rfl
example : calculateStats [] .localTemp = ⟨.inf, .ninf, .nan⟩ := rfl
example : calculateStats [⟨"a", 1/25, 2⟩] .localTemp =
    ⟨.num (1/25), .num (1/25), .num 0⟩ := by
  norm_num [calculateStats, jsMin, jsMax, jsAvg, jsSum, jsMinFold, jsMaxFold,
    Sample.get, round1]

/-! ## Helper lemmas -/

theorem round1_eq_round (x : ℚ) : round1 x = (round (10 * x) : ℚ) / 10 := by
  rw [round1, round_eq]

theorem round1_mono {x y : ℚ} (h : x ≤ y) : round1 x ≤ round1 y := by
  unfold round1
  have hf : (⌊10 * x + 1 / 2⌋ : ℤ) ≤ ⌊10 * y + 1 / 2⌋ := Int.floor_mono (by linarith)
  have hq : ((⌊10 * x + 1 / 2⌋ : ℤ) : ℚ) ≤ ((⌊10 * y + 1 / 2⌋ : ℤ) : ℚ) := by
    exact_mod_cast hf
  linarith

theorem round1_le (x : ℚ) : round1 x ≤ x + 1 / 20 := by
  unfold round1
  have h : ((⌊10 * x + 1 / 2⌋ : ℤ) : ℚ) ≤ 10 * x + 1 / 2 := Int.floor_le _
  linarith

theorem le_round1 (x : ℚ) : x - 1 / 20 ≤ round1 x := by
  unfold round1
  have h : 10 * x + 1 / 2 - 1 < ((⌊10 * x + 1 / 2⌋ : ℤ) : ℚ) := Int.sub_one_lt_floor _
  linarith

theorem foldl_jsMinFold_num (vs : List ℚ) : ∀ v : ℚ,
    vs.foldl jsMinFold (.num v) = .num (vs.foldl min v) := by
  induction vs with
  | nil => intro v; rfl
  | cons u us ih => intro v; simpa [jsMinFold] using ih (min v u)

theorem foldl_jsMaxFold_num (vs : List ℚ) : ∀ v : ℚ,
    vs.foldl jsMaxFold (.num v) = .num (vs.foldl max v) := by
  induction vs with
  | nil => intro v; rfl
  | cons u us ih => intro v; simpa [jsMaxFold] using ih (max v u)

theorem jsMin_cons (v : ℚ) (vs : List ℚ) :
    jsMin (v :: vs) = .num (vs.foldl min v) := by
  simp [jsMin, jsMinFold, foldl_jsMinFold_num]

theorem jsMax_cons (v : ℚ) (vs : List ℚ) :
    jsMax (v :: vs) = .num (vs.foldl max v) := by
  simp [jsMax, jsMaxFold, foldl_jsMaxFold_num]

theorem foldl_min_le_init (vs : List ℚ) : ∀ v : ℚ, vs.foldl min v ≤ v := by
  induction vs with
  | nil => intro v; exact le_refl v
  | cons u us ih => intro v; exact le_trans (ih (min v u)) (min_le_left v u)

theorem foldl_min_le_mem (vs : List ℚ) : ∀ v w : ℚ, w ∈ vs → vs.foldl min v ≤ w := by
  induction vs with
  | nil => intro v w h; cases h
  | cons u us ih =>
    intro v w h
    rcases List.mem_cons.mp h with rfl | h2
    · exact le_trans (foldl_min_le_init us (min v w)) (min_le_right v w)
    · exact ih (min v u) w h2

theorem init_le_foldl_max (vs : List ℚ) : ∀ v : ℚ, v ≤ vs.foldl max v := by
  induction vs with
  | nil => intro v; exact le_refl v
  | cons u us ih => intro v; exact le_trans (le_max_left v u) (ih (max v u))

theorem mem_le_foldl_max (vs : List ℚ) : ∀ v w : ℚ, w ∈ vs → w ≤ vs.foldl max v := by
  induction vs with
  | nil => intro v w h; cases h
  | cons u us ih =>
    intro v w h
    rcases List.mem_cons.mp h with rfl | h2
    · exact le_trans (le_max_right v w) (init_le_foldl_max us (max v w))
    · exact ih (max v u) w h2

theorem jsSum_eq_sum (values : List ℚ) : jsSum values = values.sum := by
  simp [jsSum, List.sum_eq_foldl]

theorem mul_length_le_sum (l : List ℚ) (c : ℚ) (h : ∀ w ∈ l, c ≤ w) :
    c * l.length ≤ l.sum := by
  induction l with
  | nil => simp
  | cons u us ih =>
    have h1 : c ≤ u := h u (by simp)
    have h2 : c * us.length ≤ us.sum := ih (fun w hw => h w (by simp [hw]))
    have h3 : c * ((us.length : ℚ) + 1) = c * us.length + c := by ring
    simp only [List.sum_cons, List.length_cons]
    push_cast
    linarith

theorem sum_le_mul_length (l : List ℚ) (c : ℚ) (h : ∀ w ∈ l, w ≤ c) :
    l.sum ≤ c * l.length := by
  induction l with
  | nil => simp
  | cons u us ih =>
    have h1 : u ≤ c := h u (by simp)
    have h2 : us.sum ≤ c * us.length := ih (fun w hw => h w (by simp [hw]))
    simp only [List.sum_cons, List.length_cons]
    push_cast
    linarith

theorem jsIndex_last (data : List Sample) (latest : Sample)
    (h : data.getLast? = some latest) :
    jsIndex data ((data.length : ℤ) - 1) = some latest := by
  have hne : data ≠ [] := by intro e; subst e; simp at h
  have hlen : 1 ≤ data.length := List.length_pos.mpr hne
  unfold jsIndex
  rw [if_neg (by omega)]
  have ht : ((data.length : ℤ) - 1).toNat = data.length - 1 := by omega
  rw [ht, ← List.getLast?_eq_getElem?]
  exact h

theorem jsIndex_pair_last (rest : List Sample) (prevS lastS : Sample) :
    jsIndex (rest ++ [prevS, lastS]) (((rest ++ [prevS, lastS]).length : ℤ) - 1) =
      some lastS := by
  have hlen : (rest ++ [prevS, lastS]).length = rest.length + 2 := by simp
  unfold jsIndex
  rw [hlen, if_neg (by omega)]
  have ht : ((rest.length + 2 : ℕ) : ℤ) - 1 = ((rest.length + 1 : ℕ) : ℤ) := by push_cast; ring
  rw [ht, Int.toNat_natCast, List.getElem?_append_right (by omega)]
  simp

theorem jsIndex_pair_prev (rest : List Sample) (prevS lastS : Sample) :
    jsIndex (rest ++ [prevS, lastS]) (((rest ++ [prevS, lastS]).length : ℤ) - 2) =
      some prevS := by
  have hlen : (rest ++ [prevS, lastS]).length = rest.length + 2 := by simp
  unfold jsIndex
  rw [hlen, if_neg (by omega)]
  have ht : ((rest.length + 2 : ℕ) : ℤ) - 2 = ((rest.length : ℕ) : ℤ) := by push_cast; ring
  rw [ht, Int.toNat_natCast, List.getElem?_append_right (by omega)]
  simp

instance : RightCommutative jsMinFold where
  right_comm b a₁ a₂ := by
    cases b with
    | num m => simp [jsMinFold, min_right_comm]
    | nan => rfl
    | inf => simp [jsMinFold, min_comm]
    | ninf => rfl

instance : RightCommutative jsMaxFold where
  right_comm b a₁ a₂ := by
    cases b with
    | num m => simp [jsMaxFold, sup_right_comm]
    | nan => rfl
    | inf => rfl
    | ninf => simp [jsMaxFold, max_comm]

/-! ## Claim theorems -/

/-- Claim C1: for every non-empty series the alert evaluation reads only the
latest sample: the battery message appears iff the latest battery temperature
exceeds 30, the differential message appears iff the absolute differential
exceeds 10, and when neither rule fires the result is the empty list. -/
theorem evaluateAlerts_latest_rules (t1 t2 : ℤ) (data : List Sample)
    (latest : Sample) (h : data.getLast? = some latest) :
    ∃ alerts : List AlertRec,
      evaluateAlerts t1 t2 data = .ok alerts ∧
      (batteryMsg ∈ alerts.map AlertRec.message ↔ latest.batteryTemp > 30) ∧
      (diffMsg ∈ alerts.map AlertRec.message ↔
        |latest.batteryTemp - latest.localTemp| > 10) ∧
      ((¬ latest.batteryTemp > 30) →
        (¬ |latest.batteryTemp - latest.localTemp| > 10) → alerts = []) := by
  unfold evaluateAlerts
  rw [jsIndex_last data latest h]
  refine ⟨_, rfl, ?_, ?_, ?_⟩ <;>
    split_ifs with h1 h2 <;>
    simp [batteryMsg, diffMsg, *]

/-- Witness for C1 at the spec example: latest sample
`{localTemp: 22, batteryTemp: 25}` fires neither rule. -/
theorem evaluateAlerts_latest_rules_witness :
    ∃ alerts : List AlertRec,
      evaluateAlerts 0 0 [⟨"00:00", 22, 25⟩] = .ok alerts ∧
      (batteryMsg ∈ alerts.map AlertRec.message ↔
        (⟨"00:00", 22, 25⟩ : Sample).batteryTemp > 30) ∧
      (diffMsg ∈ alerts.map AlertRec.message ↔
        |(⟨"00:00", 22, 25⟩ : Sample).batteryTemp -
          (⟨"00:00", 22, 25⟩ : Sample).localTemp| > 10) ∧
      ((¬ (⟨"00:00", 22, 25⟩ : Sample).batteryTemp > 30) →
        (¬ |(⟨"00:00", 22, 25⟩ : Sample).batteryTemp -
            (⟨"00:00", 22, 25⟩ : Sample).localTemp| > 10) → alerts = []) :=
  evaluateAlerts_latest_rules 0 0 [⟨"00:00", 22, 25⟩] ⟨"00:00", 22, 25⟩ rfl

/-- The ambient-estimate formula as the spec states it (§4.1, §8):
`round1((2l + b) / 3)`. -/
def estimateAmbientSpec (l b : ℚ) : ℚ := round1 ((2 * l + b) / 3)

/-- Claim C2: for all inputs the code computes `round1((2l + b) / 3)`, and in
particular `calculateAmbientTemp 22 25 = 23.0`. -/
theorem calculateAmbientTemp_eq_spec :
    (∀ l b : ℚ, calculateAmbientTemp l b = estimateAmbientSpec l b) ∧
    calculateAmbientTemp 22 25 = 23 := by
  constructor
  · intro l b
    unfold calculateAmbientTemp estimateAmbientSpec
    exact congrArg round1 (by ring)
  · norm_num [calculateAmbientTemp, round1]

/-- Claim C3: for a series with at least two samples (written as
`rest ++ [prevS, lastS]`) the trend compares the last two samples:
direction is "up" exactly when last > previous (equality gives "down"),
and the change is the rounded absolute difference. -/
theorem getTrend_last_two (data rest : List Sample) (prevS lastS : Sample)
    (key : FieldKey) (h : data = rest ++ [prevS, lastS]) :
    getTrend data key =
      .ok { direction := if lastS.get key > prevS.get key then "up" else "down"
            change := round1 |lastS.get key - prevS.get key| } := by
  subst h
  unfold getTrend
  rw [jsIndex_pair_last, jsIndex_pair_prev]

/-- Witness for C3 at the spec example: `{28, 35}` then `{25, 30}` on
`batteryTemp` gives direction "down" with change 5.0. -/
theorem getTrend_last_two_witness :
    getTrend [⟨"15:00", 28, 35⟩, ⟨"18:00", 25, 30⟩] .batteryTemp =
      .ok { direction := "down", change := 5 } := by
  rw [getTrend_last_two [⟨"15:00", 28, 35⟩, ⟨"18:00", 25, 30⟩] []
    ⟨"15:00", 28, 35⟩ ⟨"18:00", 25, 30⟩ .batteryTemp rfl]
  norm_num [Sample.get, round1]

/-- Claim C4 (divergence of the code from the claim): on the empty series
`calculateStats` returns the value `{min: Infinity, max: -Infinity, avg: NaN}`
instead of failing, and the alert evaluation throws a `TypeError` (reading a
property of `undefined`), not an `EmptySeries` error. -/
theorem emptySeries_behavior :
    calculateStats [] .localTemp = ⟨.inf, .ninf, .nan⟩ ∧
    calculateStats [] .batteryTemp = ⟨.inf, .ninf, .nan⟩ ∧
    evaluateAlerts 0 0 [] = .error .typeError :=
  ⟨rfl, rfl, rfl⟩

/-- Claim C5 is false as stated: for the singleton series with field value
1.13 the avg component is the rounded value 1.1, not the sample's value. -/
theorem singleton_stats_counterexample :
    (calculateStats [⟨"00:00", 113/100, 113/100⟩] .localTemp).avg =
      .num (11/10) ∧
    (calculateStats [⟨"00:00", 113/100, 113/100⟩] .localTemp).min =
      .num (113/100) ∧
    ¬ ((11 : ℚ)/10 = 113/100) := by
  refine ⟨?_, ?_, by norm_num⟩
  · show jsAvg [(113 : ℚ)/100] = .num (11/10)
    norm_num [jsAvg, jsSum, round1]
  · rfl

/-- Claim C5 amended: for a singleton series min and max are the sample's
field value and avg is that value rounded to one decimal place (so all three
coincide exactly when the value has at most one decimal); `getTrend` fails
with a `TypeError` (the only error the code produces, rather than a
distinguished `InsufficientData`) on every series of length below two. -/
theorem singleton_stats_and_short_trend :
    (∀ (s : Sample) (key : FieldKey),
      calculateStats [s] key =
        ⟨.num (s.get key), .num (s.get key), .num (round1 (s.get key))⟩) ∧
    (∀ (data : List Sample) (key : FieldKey), data.length < 2 →
      getTrend data key = .error .typeError) := by
  constructor
  · intro s key
    show Stats.mk (jsMin [s.get key]) (jsMax [s.get key]) (jsAvg [s.get key]) = _
    simp [jsMin, jsMax, jsAvg, jsSum, jsMinFold, jsMaxFold]
  · intro data key h
    cases data with
    | nil => rfl
    | cons a tail =>
      cases tail with
      | nil => rfl
      | cons b rest => simp only [List.length_cons] at h; omega

/-- Witness for C5 (amended) at the singleton series `{23, 28}`. -/
theorem singleton_stats_and_short_trend_witness :
    calculateStats [⟨"09:00", 23, 28⟩] .batteryTemp =
      ⟨.num 28, .num 28, .num 28⟩ ∧
    getTrend [⟨"09:00", 23, 28⟩] .batteryTemp = .error .typeError := by
  constructor
  · rw [singleton_stats_and_short_trend.1 ⟨"09:00", 23, 28⟩ .batteryTemp]
    norm_num [Sample.get, round1]
  · exact singleton_stats_and_short_trend.2 [⟨"09:00", 23, 28⟩] .batteryTemp
      (by decide)

/-- Claim C6 is false as stated: for the series `[{localTemp: 0.04,
batteryTemp: 0.04}]` the full-precision min is 0.04 but avg (the rounded
mean) is 0, so `min ≤ avg` fails. -/
theorem stats_avg_bounds_counterexample :
    calculateStats [⟨"00:00", 1/25, 1/25⟩] .batteryTemp =
      ⟨.num (1/25), .num (1/25), .num 0⟩ ∧
    ¬ ((1 : ℚ)/25 ≤ 0) := by
  constructor
  · show Stats.mk (jsMin [(1 : ℚ)/25]) (jsMax [(1 : ℚ)/25]) (jsAvg [(1 : ℚ)/25]) = _
    norm_num [jsMin, jsMax, jsAvg, jsSum, jsMinFold, jsMaxFold, round1]
  · norm_num

/-- The nonempty-list form of `jsAvg`: the list mean, rounded. -/
theorem jsAvg_cons (v : ℚ) (vs : List ℚ) :
    jsAvg (v :: vs) =
      .num (round1 ((v :: vs).sum / (((v :: vs).length : ℕ) : ℚ))) := by
  rw [jsAvg, if_neg (by simp), jsSum_eq_sum]

/-- The arithmetic mean of a nonempty list lies between the folded minimum
and the folded maximum. -/
theorem foldl_min_le_mean_le_foldl_max (v : ℚ) (vs : List ℚ) :
    vs.foldl min v ≤ (v :: vs).sum / (((v :: vs).length : ℕ) : ℚ) ∧
    (v :: vs).sum / (((v :: vs).length : ℕ) : ℚ) ≤ vs.foldl max v := by
  have hlow : ∀ w ∈ v :: vs, vs.foldl min v ≤ w := by
    intro w hw
    rcases List.mem_cons.mp hw with h1 | h2
    · exact h1 ▸ foldl_min_le_init vs v
    · exact foldl_min_le_mem vs v w h2
  have hhigh : ∀ w ∈ v :: vs, w ≤ vs.foldl max v := by
    intro w hw
    rcases List.mem_cons.mp hw with h1 | h2
    · exact h1 ▸ init_le_foldl_max vs v
    · exact mem_le_foldl_max vs v w h2
  have hpos : (0 : ℚ) < (((v :: vs).length : ℕ) : ℚ) := by
    simp only [List.length_cons]
    positivity
  constructor
  · rw [le_div_iff₀ hpos]
    exact mul_length_le_sum (v :: vs) _ hlow
  · rw [div_le_iff₀ hpos]
    exact sum_le_mul_length (v :: vs) _ hhigh

/-- Claim C6 amended: for every non-empty series the stats are finite values
with `min ≤ max`; the unrounded mean lies between them, so the rounded avg
lies between `round1 min` and `round1 max` and within `1/20` of the
`[min, max]` interval. -/
theorem calculateStats_avg_bounds (data : List Sample) (key : FieldKey)
    (h : data ≠ []) :
    ∃ mn mx av : ℚ,
      calculateStats data key = ⟨.num mn, .num mx, .num av⟩ ∧
      mn ≤ mx ∧
      round1 mn ≤ av ∧ av ≤ round1 mx ∧
      mn - 1/20 ≤ av ∧ av ≤ mx + 1/20 := by
  obtain ⟨x, xs, rfl⟩ := List.exists_cons_of_ne_nil h
  have hmean := foldl_min_le_mean_le_foldl_max (x.get key)
    (xs.map (fun item => item.get key))
  refine ⟨(xs.map (fun item => item.get key)).foldl min (x.get key),
    (xs.map (fun item => item.get key)).foldl max (x.get key),
    round1 ((x.get key :: xs.map (fun item => item.get key)).sum /
      (((x.get key :: xs.map (fun item => item.get key)).length : ℕ) : ℚ)),
    ?_, ?_, ?_, ?_, ?_, ?_⟩
  · show Stats.mk (jsMin ((x :: xs).map fun item => item.get key))
        (jsMax ((x :: xs).map fun item => item.get key))
        (jsAvg ((x :: xs).map fun item => item.get key)) = _
    rw [List.map_cons, jsMin_cons, jsMax_cons, jsAvg_cons]
  · exact le_trans (foldl_min_le_init _ _) (init_le_foldl_max _ _)
  · exact round1_mono hmean.1
  · exact round1_mono hmean.2
  · have h1 := le_round1 ((xs.map (fun item => item.get key)).foldl min (x.get key))
    have h2 := round1_mono hmean.1
    linarith
  · have h1 := round1_le ((x.get key :: xs.map (fun item => item.get key)).sum /
      (((x.get key :: xs.map (fun item => item.get key)).length : ℕ) : ℚ))
    have h2 := hmean.2
    linarith

/-- Witness for C6 (amended) at the two-sample series with local values
20 and 24: min 20, max 24, avg 22. -/
theorem calculateStats_avg_bounds_witness :
    ∃ mn mx av : ℚ,
      calculateStats [⟨"a", 20, 30⟩, ⟨"b", 24, 26⟩] .localTemp =
        ⟨.num mn, .num mx, .num av⟩ ∧
      mn ≤ mx ∧
      round1 mn ≤ av ∧ av ≤ round1 mx ∧
      mn - 1/20 ≤ av ∧ av ≤ mx + 1/20 :=
  calculateStats_avg_bounds [⟨"a", 20, 30⟩, ⟨"b", 24, 26⟩] .localTemp (by simp)

theorem jsMin_perm {l1 l2 : List ℚ} (h : l1.Perm l2) : jsMin l1 = jsMin l2 := by
  unfold jsMin
  exact h.foldl_eq _

theorem jsMax_perm {l1 l2 : List ℚ} (h : l1.Perm l2) : jsMax l1 = jsMax l2 := by
  unfold jsMax
  exact h.foldl_eq _

theorem jsSum_perm {l1 l2 : List ℚ} (h : l1.Perm l2) : jsSum l1 = jsSum l2 := by
  rw [jsSum_eq_sum, jsSum_eq_sum]
  exact h.sum_eq

theorem jsAvg_perm {l1 l2 : List ℚ} (h : l1.Perm l2) : jsAvg l1 = jsAvg l2 := by
  unfold jsAvg
  rw [jsSum_perm h, h.length_eq]

/-- Claim C7: `calculateStats` is invariant under reordering of the series:
permuted series give identical min, max and avg. -/
theorem calculateStats_perm (d1 d2 : List Sample) (key : FieldKey)
    (h : d1.Perm d2) : calculateStats d1 key = calculateStats d2 key := by
  have hm := h.map (fun item => item.get key)
  show Stats.mk (jsMin (d1.map fun item => item.get key))
      (jsMax (d1.map fun item => item.get key))
      (jsAvg (d1.map fun item => item.get key)) =
    Stats.mk (jsMin (d2.map fun item => item.get key))
      (jsMax (d2.map fun item => item.get key))
      (jsAvg (d2.map fun item => item.get key))
  rw [jsMin_perm hm, jsMax_perm hm, jsAvg_perm hm]

/-- Witness for C7: swapping the two samples leaves the stats unchanged. -/
theorem calculateStats_perm_witness :
    calculateStats [⟨"00:00", 22, 25⟩, ⟨"03:00", 21, 24⟩] .localTemp =
      calculateStats [⟨"03:00", 21, 24⟩, ⟨"00:00", 22, 25⟩] .localTemp :=
  calculateStats_perm _ _ .localTemp
    (List.Perm.swap (⟨"03:00", 21, 24⟩ : Sample) (⟨"00:00", 22, 25⟩ : Sample) [])

/-- Claim C8 is false as stated: two invocations of the alert evaluation on
equal input series but at different times (different `Date.now()` readings)
produce different results — the alert ids differ. -/
theorem evaluateAlerts_invocations_counterexample :
    evaluateAlerts 0 0 [⟨"12:00", 20, 32⟩] ≠
      evaluateAlerts 5 5 [⟨"12:00", 20, 32⟩] := by
  norm_num [evaluateAlerts, jsIndex]

/-- Claim C8 amended: every core function is deterministic in its explicit
inputs, and the alert evaluation is deterministic given the series and the
two `Date.now()` readings; across invocations at different times only the
ids change — the message sequence is time-independent. -/
theorem core_determinism (t1 t2 u1 u2 : ℤ) (d1 d2 : List Sample)
    (key : FieldKey) (h : d1 = d2) :
    calculateStats d1 key = calculateStats d2 key ∧
    getTrend d1 key = getTrend d2 key ∧
    (∀ l b : ℚ, calculateAmbientTemp l b = calculateAmbientTemp l b) ∧
    evaluateAlerts t1 t2 d1 = evaluateAlerts t1 t2 d2 ∧
    (evaluateAlerts t1 t2 d1).map (List.map AlertRec.message) =
      (evaluateAlerts u1 u2 d2).map (List.map AlertRec.message) := by
  subst h
  refine ⟨rfl, rfl, fun _ _ => rfl, rfl, ?_⟩
  unfold evaluateAlerts
  cases jsIndex d1 ((d1.length : ℤ) - 1) with
  | none => rfl
  | some latest =>
    dsimp only
    split_ifs <;> simp [Except.map]

/-- Witness for C8 (amended): on the series whose latest sample fires both
rules, invocations at times 0 and 5 agree on the messages. -/
theorem core_determinism_witness :
    calculateStats [⟨"15:00", 28, 35⟩] .localTemp =
      calculateStats [⟨"15:00", 28, 35⟩] .localTemp ∧
    getTrend [⟨"15:00", 28, 35⟩] .localTemp =
      getTrend [⟨"15:00", 28, 35⟩] .localTemp ∧
    (∀ l b : ℚ, calculateAmbientTemp l b = calculateAmbientTemp l b) ∧
    evaluateAlerts 0 0 [⟨"15:00", 28, 35⟩] =
      evaluateAlerts 0 0 [⟨"15:00", 28, 35⟩] ∧
    (evaluateAlerts 0 0 [⟨"15:00", 28, 35⟩]).map (List.map AlertRec.message) =
      (evaluateAlerts 5 5 [⟨"15:00", 28, 35⟩]).map (List.map AlertRec.message) :=
  core_determinism 0 0 5 5 [⟨"15:00", 28, 35⟩] [⟨"15:00", 28, 35⟩]
    .localTemp rfl

/-- Claim C9: within one evaluation in which both rules fire, the two alert
ids are distinct: the first is the first `Date.now()` reading `t1`, the
second is the second reading plus one, and the clock does not go backwards
(`t1 ≤ t2`). -/
theorem evaluateAlerts_distinct_ids (t1 t2 : ℤ) (data : List Sample)
    (latest : Sample) (hmono : t1 ≤ t2) (h : data.getLast? = some latest)
    (h1 : latest.batteryTemp > 30)
    (h2 : |latest.batteryTemp - latest.localTemp| > 10) :
    evaluateAlerts t1 t2 data =
      .ok [{ id := t1, message := batteryMsg },
           { id := t2 + 1, message := diffMsg }] ∧
    t1 ≠ t2 + 1 := by
  constructor
  · unfold evaluateAlerts
    rw [jsIndex_last data latest h]
    simp [h1, h2]
  · omega

/-- Witness for C9 at the sample `{20, 32}` (both rules fire) with clock
readings 3 and then 7: ids 3 and 8. -/
theorem evaluateAlerts_distinct_ids_witness :
    evaluateAlerts 3 7 [⟨"12:00", 20, 32⟩] =
      .ok [{ id := 3, message := batteryMsg },
           { id := 7 + 1, message := diffMsg }] ∧
    (3 : ℤ) ≠ 7 + 1 :=
  evaluateAlerts_distinct_ids 3 7 [⟨"12:00", 20, 32⟩] ⟨"12:00", 20, 32⟩
    (by norm_num) rfl (by norm_num) (by norm_num)

/-- Claim C10: for a non-empty series the alert list has length at most two,
every message is one of the two fixed strings, and when both appear the
battery-high message precedes the differential message: the message list is
one of `[]`, `[batteryMsg]`, `[diffMsg]`, `[batteryMsg, diffMsg]`. -/
theorem evaluateAlerts_shape (t1 t2 : ℤ) (data : List Sample)
    (latest : Sample) (h : data.getLast? = some latest) :
    ∃ alerts : List AlertRec,
      evaluateAlerts t1 t2 data = .ok alerts ∧
      alerts.length ≤ 2 ∧
      (alerts.map AlertRec.message = [] ∨
       alerts.map AlertRec.message = [batteryMsg] ∨
       alerts.map AlertRec.message = [diffMsg] ∨
       alerts.map AlertRec.message = [batteryMsg, diffMsg]) := by
  unfold evaluateAlerts
  rw [jsIndex_last data latest h]
  refine ⟨_, rfl, ?_, ?_⟩ <;> split_ifs <;> simp

/-- Witness for C10 at the sample `{20, 32}`: both rules fire, giving the
two messages in rule order. -/
theorem evaluateAlerts_shape_witness :
    ∃ alerts : List AlertRec,
      evaluateAlerts 0 0 [⟨"06:00", 20, 32⟩] = .ok alerts ∧
      alerts.length ≤ 2 ∧
      (alerts.map AlertRec.message = [] ∨
       alerts.map AlertRec.message = [batteryMsg] ∨
       alerts.map AlertRec.message = [diffMsg] ∨
       alerts.map AlertRec.message = [batteryMsg, diffMsg]) :=
  evaluateAlerts_shape 0 0 [⟨"06:00", 20, 32⟩] ⟨"06:00", 20, 32⟩ rfl
